import Mathlib

/-!
Verification of the TubeHoarder acquisition pipeline.

The repository ships two near-duplicate revisions of the same program:
`src/main.py` (version 2.0.0, the current revision) and
`src/unnamed/part_000` (version 1.2.1, the superseded revision).  The
definitions below are a shallow embedding of the pipeline logic of
`src/main.py` (`processVideo`, `App.startCase`, the HTML report writer and
the progress hook); where the older revision differs on a point a claim
depends on (thumbnail hashing, which only revision 1.2.1 performs), that
revision's `processVideo` is embedded separately as `jobRunV1`.

External effects (the yt-dlp fetch engine, file I/O, the thumbnail HTTP
request, the digest calls) are modelled by an explicit per-job environment
`JobEnv` that fixes each call's outcome; a job run then produces a linear
trace of the actions the Python code performs, in program order, from which
the emitted UI-queue events and appended report rows are read off.
-/

namespace TubeHoarder

/-! ### String helpers (Python `str.strip`, `str.replace`, `os.path`) -/

/-- Strip ASCII whitespace from both ends of a character list
(models Python `str.strip()`). -/
def trimChars (cs : List Char) : List Char :=
  ((cs.dropWhile Char.isWhitespace).reverse.dropWhile Char.isWhitespace).reverse

/-- Python `s.strip()`. -/
def strip (s : String) : String := ⟨trimChars s.data⟩

/-- Python `s.replace("%", "")`: drop every percent sign. -/
def dropPct (s : String) : String := ⟨s.data.filter (fun c => c ≠ '%')⟩

/-- Numeric value of a digit string (most significant first). -/
def digitsVal (cs : List Char) : Nat :=
  cs.foldl (fun n c => 10 * n + (c.toNat - 48)) 0

/-- Parse an unsigned decimal numeral `digits[.digits]` to a rational.
Returns `none` when the shape is not a numeral (models Python `float()`
raising `ValueError`, restricted to the plain decimal numerals yt-dlp
produces in `_percent_str`). -/
def parseUnsigned (cs : List Char) : Option Rat :=
  let ip := cs.takeWhile Char.isDigit
  let rest := cs.dropWhile Char.isDigit
  match rest with
  | [] => if ip.isEmpty then none else some (digitsVal ip : Rat)
  | '.' :: frac =>
      if frac.all Char.isDigit && !(ip.isEmpty && frac.isEmpty) then
        some ((digitsVal ip : Rat) + (digitsVal frac : Rat) / (10 : Rat) ^ frac.length)
      else none
  | _ => none

/-- Parse an optionally signed decimal numeral (model of Python `float()`
on plain decimal numerals). -/
def parseDec (s : String) : Option Rat :=
  match s.data with
  | '+' :: rest => parseUnsigned rest
  | '-' :: rest => (parseUnsigned rest).map (fun q => -q)
  | _ => parseUnsigned s.data

/-- POSIX path join, as used by `os.path.join` in the source. -/
def joinPath (a b : String) : String := a ++ "/" ++ b

/-- `os.path.basename`: the final path component (POSIX separators). -/
def basename (p : String) : String :=
  ⟨p.data.foldl (fun acc c => if c = '/' then [] else acc ++ [c]) []⟩

/-- `os.path.dirname`: everything before the last separator. -/
def dirname (p : String) : String :=
  ⟨((p.data.reverse.dropWhile (fun c => c ≠ '/')).drop 1).reverse⟩

/-- Whether the first list starts the second. -/
def leadsWith : List Char → List Char → Bool
  | [], _ => true
  | _ :: _, [] => false
  | a :: as, b :: bs => a = b && leadsWith as bs

/-- `toRelHref(target, base)` from `src/main.py`: the report links to the
final artifact relative to the report directory.  Modelled for the case the
layout guarantees (the target lies under the base directory); other inputs
are returned unchanged. -/
def toRelHref (targetPath base_dir : String) : String :=
  if leadsWith (base_dir.data ++ ['/']) targetPath.data then
    ⟨targetPath.data.drop (base_dir.data.length + 1)⟩
  else targetPath

/-! ### Events, report rows, actions -/

/-- A UI-queue message `(url, tag, payload)` as placed on `UIQueue` by
`processVideo` and `App.startCase.finalize`. -/
inductive Event where
  | progress (url : String) (pct : Rat)
  | merging (url : String) (pct : Rat)
  | done (url : String) (sha : String)
  | failed (url : String) (err : String)
  | finished (reportPath : String)
deriving DecidableEq, Repr

/-- One `<tr>` appended to the HTML report (timestamps omitted: they are
wall-clock effects).  `thumbSha` is the extra thumbnail-hash column that
only revision 1.2.1's report has; revision 2.0.0 rows carry `none`. -/
structure Row where
  thumb : String
  title : String
  href : String
  url : String
  status : String
  sha : String
  thumbSha : Option String
deriving DecidableEq, Repr

/-- A primitive action performed by the pipeline, in program order. -/
inductive Action where
  | mkdir (p : String)
  | createLog (p : String)
  | createPool (n : Int)
  | submit (url : String)
  | thumbFetch (u p : String) (ok : Bool)
  | hashFile (p : String)
  | move (src dst : String)
  | acquire (lk : String)
  | release (lk : String)
  | writeRow (r : Row)
  | closeLog (p : String)
  | putEvent (e : Event)
deriving DecidableEq, Repr

/-- One invocation of the yt-dlp progress hook: the fields the hook reads
from the callback dict (`d.get("status")`, `d.get("_percent_str", "0%")`). -/
structure HookCall where
  status : Option String
  percentStr : Option String
deriving DecidableEq, Repr

/-- The metadata `extract_info` resolves for a URL. -/
structure FetchMeta where
  title : String
  vid : String
  ext : String
  thumbnailUrl : Option String
deriving DecidableEq, Repr

/-- Outcomes of the external calls one job performs, fixed up front:
the fetch, the progress callbacks delivered during it, the thumbnail
download (`downloadThumbnail` returns a `Bool`, never raises), the
thumbnail digest (used only by revision 1.2.1), the two primary digests,
the move, and whether each report append succeeds (`appendErr` is the
text of the exception a failing success-path append raises). -/
structure JobEnv where
  fetch : Except String FetchMeta
  hooks : List HookCall
  thumbOk : Bool
  thumbSha : Except String String
  hash1 : Except String String
  moveRes : Except String Unit
  hash2 : Except String String
  appendOk : Bool
  appendErr : String
  failAppendOk : Bool

/-- Result of one job: its action trace and, when an exception escaped
`processVideo` (only possible when the failure-path report append itself
raises), the propagated message. -/
structure JobOut where
  trace : List Action
  raised : Option String
deriving DecidableEq, Repr

/-! ### The progress hook (`processVideo.hook`, `src/main.py:158-167`) -/

/-- Events the revision 2.0.0 hook puts on `UIQueue` for one callback:
`"downloading"` yields one PROGRESS event whose percent is
`float(d.get("_percent_str","0%").replace("%","").strip())` defaulting to
0 when unparsable; `"finished"` yields one MERGING event at 99; any other
status yields nothing.  The hook is a total function: it never raises. -/
def hookEvents (url : String) (c : HookCall) : List Event :=
  match c.status with
  | some "downloading" =>
      [Event.progress url ((parseDec (strip (dropPct (c.percentStr.getD "0%")))).getD 0)]
  | some "finished" => [Event.merging url 99]
  | _ => []

/-- Revision 1.2.1's hook (`src/unnamed/part_000:118-125`): only the
`"downloading"` branch exists; there is no MERGING event.  (That revision
indexes `d["status"]` directly, so a callback without a `"status"` key
would raise; yt-dlp always supplies one, and no claim depends on it, so
the `none` case is modelled as producing no event.) -/
def hookEventsV1 (url : String) (c : HookCall) : List Event :=
  match c.status with
  | some "downloading" =>
      [Event.progress url ((parseDec (strip (dropPct (c.percentStr.getD "0%")))).getD 0)]
  | _ => []

/-! ### One acquisition job (`processVideo`) -/

/-- The output template `os.path.join(videoDir, f"{case}_%(title)s.%(ext)s")`
(`src/main.py:173`) as rendered by the fetch engine's `prepare_filename`.
Modelled from the spec (§6): the engine contract substitutes the resolved
title and extension into the caller's output template and downloads to the
resulting path, which `prepare_filename` returns as the temp path. -/
def prepareFilename (videoDir caseId title ext : String) : String :=
  joinPath videoDir (caseId ++ "_" ++ title ++ "." ++ ext)

/-- The failure row written by the `except` branch of `processVideo`:
thumbnail cell `N/A`, title `UNKNOWN_TITLE`, no artifact link, status
`FAILED`, the hash column holding the exception text.  `tSha` is the extra
column of revision 1.2.1 (`N/A` there), absent in revision 2.0.0. -/
def failRow (url err : String) (tSha : Option String) : Row :=
  { thumb := "N/A", title := "UNKNOWN_TITLE", href := "", url := url,
    status := "FAILED", sha := err, thumbSha := tSha }

/-- The `except` branch of `processVideo`: take `logLock`, append the
FAILED row, release, then put the FAILED event.  If opening/writing the
report raises, the lock is released by the `with` statement and the
exception propagates out of `processVideo` — no FAILED event is put. -/
def failTail (url err : String) (tSha : Option String) (ok : Bool) :
    List Action × Option String :=
  if ok then
    ([Action.acquire "logLock", Action.writeRow (failRow url err tSha),
      Action.release "logLock", Action.putEvent (Event.failed url err)], none)
  else
    ([Action.acquire "logLock", Action.release "logLock"], some err)

/-- `processVideo` of `src/main.py:157-247` (revision 2.0.0), run against
the environment `env`.  Program order: progress-hook callbacks during the
fetch, thumbnail download (result ignored), `hash1 = sha256Hash(temp_path)`,
`shutil.move(temp_path, finalPath)` with
`finalPath = os.path.join(videoDir, os.path.basename(temp_path))`,
`hash2 = sha256Hash(finalPath)`, status `VERIFIED`/`HASH_MISMATCH`, the
locked report append, then the DONE event carrying `hash2`.  Any exception
(engine failure, digest or move failure, a raising success-path append)
reaches the single `except` branch, which appends a FAILED row under the
lock and puts a FAILED event. -/
def jobRun (url videoDir thumbDir logFile caseId : String) (env : JobEnv) : JobOut :=
  let hookActs := (env.hooks.flatMap (hookEvents url)).map Action.putEvent
  let fail := fun (pre : List Action) (e : String) =>
    let t := failTail url e none env.failAppendOk
    JobOut.mk (pre ++ t.1) t.2
  match env.fetch with
  | Except.error e => fail hookActs e
  | Except.ok meta =>
    let temp := prepareFilename videoDir caseId meta.title meta.ext
    let thumbFilename := meta.vid ++ "_thumbnail.jpg"
    let thumbPath := joinPath thumbDir thumbFilename
    let thumbActs :=
      match meta.thumbnailUrl with
      | some tu => [Action.thumbFetch tu thumbPath env.thumbOk]
      | none => []
    let pre1 := hookActs ++ thumbActs
    match env.hash1 with
    | Except.error e => fail (pre1 ++ [Action.hashFile temp]) e
    | Except.ok h1 =>
      let finalPath := joinPath videoDir (basename temp)
      match env.moveRes with
      | Except.error e => fail (pre1 ++ [Action.hashFile temp, Action.move temp finalPath]) e
      | Except.ok _ =>
        match env.hash2 with
        | Except.error e =>
            fail (pre1 ++ [Action.hashFile temp, Action.move temp finalPath,
                           Action.hashFile finalPath]) e
        | Except.ok h2 =>
          let status := if h1 = h2 then "VERIFIED" else "HASH_MISMATCH"
          let row : Row :=
            { thumb := "Thumbnails/" ++ thumbFilename, title := meta.title,
              href := toRelHref finalPath (dirname logFile), url := url,
              status := status, sha := h2, thumbSha := none }
          let core := pre1 ++ [Action.hashFile temp, Action.move temp finalPath,
                               Action.hashFile finalPath]
          if env.appendOk then
            JobOut.mk (core ++ [Action.acquire "logLock", Action.writeRow row,
                                Action.release "logLock",
                                Action.putEvent (Event.done url h2)]) none
          else
            fail (core ++ [Action.acquire "logLock", Action.release "logLock"]) env.appendErr

/-- `processVideo` of `src/unnamed/part_000:116-189` (revision 1.2.1).
Differences from `jobRun`: the hook lacks the `"finished"` branch; when the
thumbnail URL is present and `downloadThumbnail` succeeds, the thumbnail is
hashed *inside the main `try`* (`thumbnailHash = sha256Hash(thumbPath)`,
line 148) so a raising thumbnail digest reaches the `except` branch and
fails the job; the report row carries the extra thumbnail-hash column
(`N/A` when the thumbnail was not fetched) and no artifact link. -/
def jobRunV1 (url videoDir thumbDir _logFile caseId : String) (env : JobEnv) : JobOut :=
  let hookActs := (env.hooks.flatMap (hookEventsV1 url)).map Action.putEvent
  let fail := fun (pre : List Action) (e : String) =>
    let t := failTail url e (some "N/A") env.failAppendOk
    JobOut.mk (pre ++ t.1) t.2
  match env.fetch with
  | Except.error e => fail hookActs e
  | Except.ok meta =>
    let temp := prepareFilename videoDir caseId meta.title meta.ext
    let thumbFilename := meta.vid ++ "_thumbnail.jpg"
    let thumbPath := joinPath thumbDir thumbFilename
    let thumbActs :=
      match meta.thumbnailUrl with
      | none => []
      | some tu =>
        if env.thumbOk then [Action.thumbFetch tu thumbPath true, Action.hashFile thumbPath]
        else [Action.thumbFetch tu thumbPath false]
    let thumbHashRes : Except String String :=
      match meta.thumbnailUrl with
      | none => Except.ok "N/A"
      | some _ => if env.thumbOk then env.thumbSha else Except.ok "N/A"
    let pre1 := hookActs ++ thumbActs
    match thumbHashRes with
    | Except.error e => fail pre1 e
    | Except.ok tSha =>
      match env.hash1 with
      | Except.error e => fail (pre1 ++ [Action.hashFile temp]) e
      | Except.ok h1 =>
        let finalPath := joinPath videoDir (basename temp)
        match env.moveRes with
        | Except.error e => fail (pre1 ++ [Action.hashFile temp, Action.move temp finalPath]) e
        | Except.ok _ =>
          match env.hash2 with
          | Except.error e =>
              fail (pre1 ++ [Action.hashFile temp, Action.move temp finalPath,
                             Action.hashFile finalPath]) e
          | Except.ok h2 =>
            let status := if h1 = h2 then "VERIFIED" else "HASH_MISMATCH"
            let row : Row :=
              { thumb := "Thumbnails/" ++ thumbFilename, title := meta.title,
                href := "", url := url, status := status, sha := h2,
                thumbSha := some tSha }
            let core := pre1 ++ [Action.hashFile temp, Action.move temp finalPath,
                                 Action.hashFile finalPath]
            if env.appendOk then
              JobOut.mk (core ++ [Action.acquire "logLock", Action.writeRow row,
                                  Action.release "logLock",
                                  Action.putEvent (Event.done url h2)]) none
            else
              fail (core ++ [Action.acquire "logLock", Action.release "logLock"]) env.appendErr

/-! ### The run (`App.startCase`, `src/main.py:574-636`) -/

/-- The configuration `startCase` reads from the form: the case entry, the
result of `int(self.threadPicker.get())` (`none` when it raised), the lines
of the URL box, and the destination entry. -/
structure RunConfig where
  caseId : String
  threadsRaw : Option Int
  urlLines : List String
  destination : String

/-- The three rejections of `startCase`. -/
inductive ConfigError where
  | missingCase
  | noUrls
  | noDestination
deriving DecidableEq, Repr

/-- `[u.strip() for u in urlText.split("\n") if u.strip()]`. -/
def cleanUrls (lines : List String) : List String :=
  (lines.map strip).filter (fun u => u ≠ "")

/-- `threads = max(1, min(32, int(get())))`, falling back to 4 when the
`int()` call raised (`src/main.py:580-584`). -/
def effectiveThreads (cfg : RunConfig) : Int :=
  match cfg.threadsRaw with
  | none => 4
  | some t => max 1 (min 32 t)

/-- `base = os.path.join(destination_root, case)`. -/
def baseDir (cfg : RunConfig) : String :=
  joinPath (strip cfg.destination) (strip cfg.caseId)

def videoDirOf (cfg : RunConfig) : String := joinPath (baseDir cfg) "Videos"

def thumbDirOf (cfg : RunConfig) : String := joinPath (baseDir cfg) "Thumbnails"

/-- `log_file = os.path.join(base, f"{case}_report.html")`. -/
def logFileOf (cfg : RunConfig) : String :=
  joinPath (baseDir cfg) (strip cfg.caseId ++ "_report.html")

/-- A validated run: the clamped pool size and the full action trace. -/
structure RunOut where
  threads : Int
  trace : List Action
deriving DecidableEq, Repr

/-- The actions of a validated run, in program order: make the two case
directories, write the report header, create the worker pool, submit one
`processVideo` job per URL (each job's trace inlined after its submission —
a linearization of the concurrent execution), and, once `as_completed` has
drained every future, the `finalize` thread closes the report and puts the
single `("__SYSTEM__", "FINISHED", log_file)` event. -/
def runOutOf (cfg : RunConfig) (envOf : String → JobEnv) : RunOut :=
  let urls := cleanUrls cfg.urlLines
  let t := effectiveThreads cfg
  let jobsPart := urls.flatMap (fun u =>
    Action.submit u ::
      (jobRun u (videoDirOf cfg) (thumbDirOf cfg) (logFileOf cfg)
        (strip cfg.caseId) (envOf u)).trace)
  ⟨t, [Action.mkdir (videoDirOf cfg), Action.mkdir (thumbDirOf cfg),
       Action.createLog (logFileOf cfg), Action.createPool t] ++ jobsPart ++
      [Action.closeLog (logFileOf cfg), Action.putEvent (Event.finished (logFileOf cfg))]⟩

/-- `App.startCase` (`src/main.py:574-596`): reject an empty case number,
an empty URL list, or an empty destination, in that order, before creating
any directory, the report, or the pool; otherwise perform the run. -/
def runCase (cfg : RunConfig) (envOf : String → JobEnv) : Except ConfigError RunOut :=
  if strip cfg.caseId = "" then Except.error ConfigError.missingCase
  else if cleanUrls cfg.urlLines = [] then Except.error ConfigError.noUrls
  else if strip cfg.destination = "" then Except.error ConfigError.noDestination
  else Except.ok (runOutOf cfg envOf)

/-- The actions a `startCase` call performs: none when it was rejected. -/
def runActions (r : Except ConfigError RunOut) : List Action :=
  match r with
  | Except.error _ => []
  | Except.ok out => out.trace

/-! ### Observations on traces -/

/-- The UI-queue events of a trace, in order. -/
def eventsOf (tr : List Action) : List Event :=
  tr.filterMap (fun a => match a with | Action.putEvent e => some e | _ => none)

/-- The report rows of a trace, in order. -/
def rowsOf (tr : List Action) : List Row :=
  tr.filterMap (fun a => match a with | Action.writeRow r => some r | _ => none)

/-- The `(src, dst)` pairs of the `shutil.move` calls in a trace. -/
def movesOf (tr : List Action) : List (String × String) :=
  tr.filterMap (fun a => match a with | Action.move s d => some (s, d) | _ => none)

/-- Terminal events: DONE or FAILED (FINISHED is run-level, not per-URL). -/
def isTerminal : Event → Bool
  | Event.done _ _ => true
  | Event.failed _ _ => true
  | _ => false

def isDone : Event → Bool
  | Event.done _ _ => true
  | _ => false

def isFailed : Event → Bool
  | Event.failed _ _ => true
  | _ => false

def isFinished : Event → Bool
  | Event.finished _ => true
  | _ => false

/-- The URL a UI-queue message is keyed by (`data[0]` in `updatingUI`);
the run-level FINISHED message uses the literal key `"__SYSTEM__"`. -/
def eventKey : Event → String
  | Event.progress u _ => u
  | Event.merging u _ => u
  | Event.done u _ => u
  | Event.failed u _ => u
  | Event.finished _ => "__SYSTEM__"

def terminalEvents (evs : List Event) : List Event := evs.filter isTerminal

/-- Run-level actions a job must never perform. -/
def isCloseAct : Action → Bool
  | Action.closeLog _ => true
  | _ => false

/-- Pool creation and job submission, for ordering statements. -/
def isDispatch : Action → Bool
  | Action.createPool _ => true
  | Action.submit _ => true
  | _ => false

/-- `writesLockedGo lk depth tr = true` iff every `writeRow` in `tr` occurs
while the lock `lk` is held (depth counts acquisitions of `lk`). -/
def writesLockedGo (lk : String) (depth : Nat) : List Action → Bool
  | [] => true
  | Action.acquire l :: rest =>
      writesLockedGo lk (if l = lk then depth + 1 else depth) rest
  | Action.release l :: rest =>
      writesLockedGo lk (if l = lk then depth - 1 else depth) rest
  | Action.writeRow _ :: rest => decide (0 < depth) && writesLockedGo lk depth rest
  | _ :: rest => writesLockedGo lk depth rest

/-- Every physical report write in the trace happens while holding `lk`. -/
def writesLocked (lk : String) (tr : List Action) : Bool :=
  writesLockedGo lk 0 tr

/-- The trace of the job dispatched for `u` inside a run over `cfg`. -/
def jobTrace (cfg : RunConfig) (envOf : String → JobEnv) (u : String) : List Action :=
  (jobRun u (videoDirOf cfg) (thumbDirOf cfg) (logFileOf cfg)
    (strip cfg.caseId) (envOf u)).trace

/-- `startCase` accepts exactly the configurations with a non-empty case
number, a non-empty cleaned URL list and a non-empty destination. -/
def validCfg (cfg : RunConfig) : Bool :=
  (strip cfg.caseId ≠ "") && (cleanUrls cfg.urlLines ≠ []) && (strip cfg.destination ≠ "")

/-- `true` iff the trace contains, consecutively, a digest of `temp`, the
`shutil.move` of `temp` to `fin`, and a digest of `fin` — the two digest
calls straddling the move call, in program order. -/
def hashStraddlesMove (temp fin : String) : List Action → Bool
  | Action.hashFile a :: Action.move b c :: Action.hashFile d :: rest =>
      (a = temp && b = temp && c = fin && d = fin)
        || hashStraddlesMove temp fin (Action.move b c :: Action.hashFile d :: rest)
  | _ :: rest => hashStraddlesMove temp fin rest
  | [] => false

/-- A fully successful job environment: metadata resolves, no thumbnail
URL, both digests agree, every append succeeds. -/
def okEnv : JobEnv :=
  { fetch := Except.ok { title := "clip", vid := "id1", ext := "mp4", thumbnailUrl := none },
    hooks := [], thumbOk := true, thumbSha := Except.ok "ts",
    hash1 := Except.ok "h", moveRes := Except.ok (), hash2 := Except.ok "h",
    appendOk := true, appendErr := "", failAppendOk := true }

/-- A successful fetch whose two primary digests disagree. -/
def mismatchEnv : JobEnv :=
  { fetch := Except.ok { title := "vid", vid := "id1", ext := "mp4", thumbnailUrl := none },
    hooks := [], thumbOk := true, thumbSha := Except.ok "ts",
    hash1 := Except.ok "hashBefore1", moveRes := Except.ok (),
    hash2 := Except.ok "hashAfter2",
    appendOk := true, appendErr := "", failAppendOk := true }

/-- A successful primary download whose thumbnail is fetched but whose
thumbnail digest raises. -/
def thumbHashFailEnv : JobEnv :=
  { fetch := Except.ok ⟨"vid", "id1", "mp4", some "http://thumb"⟩,
    hooks := [], thumbOk := true, thumbSha := Except.error "thumbnail digest error",
    hash1 := Except.ok "h", moveRes := Except.ok (), hash2 := Except.ok "h",
    appendOk := true, appendErr := "", failAppendOk := true }

/-- Like `thumbHashFailEnv` but the thumbnail download itself fails. -/
def thumbFetchFailEnv : JobEnv :=
  { fetch := Except.ok ⟨"vid", "id1", "mp4", some "http://thumb"⟩,
    hooks := [], thumbOk := false, thumbSha := Except.error "unused",
    hash1 := Except.ok "h", moveRes := Except.ok (), hash2 := Except.ok "h",
    appendOk := true, appendErr := "", failAppendOk := true }

/-- The fetch engine raises; the failure-path report append succeeds. -/
def fetchFailEnv : JobEnv :=
  { fetch := Except.error "boom", hooks := [], thumbOk := true,
    thumbSha := Except.ok "ts", hash1 := Except.ok "h", moveRes := Except.ok (),
    hash2 := Except.ok "h", appendOk := true, appendErr := "", failAppendOk := true }

/-- The fetch engine raises and the failure-path report append also raises. -/
def fetchFailNoAppendEnv : JobEnv :=
  { fetch := Except.error "disk full", hooks := [], thumbOk := true,
    thumbSha := Except.ok "ts", hash1 := Except.ok "h", moveRes := Except.ok (),
    hash2 := Except.ok "h", appendOk := true, appendErr := "", failAppendOk := false }

/-- A two-URL configuration for concrete runs. -/
def twoUrlCfg : RunConfig :=
  { caseId := "CASE007", threadsRaw := some 2,
    urlLines := ["https://example/videoA", "https://example/videoB"],
    destination := "/cases" }

/-- Per-URL environments for `twoUrlCfg`: the first URL succeeds, the
second fails at fetch. -/
def twoUrlEnvOf : String → JobEnv :=
  fun u => if u = "https://example/videoA" then okEnv else fetchFailEnv

/-- A single-URL configuration, used with `fetchFailNoAppendEnv` to run
the job whose fetch fails and whose FAILED-row append then raises. -/
def oneUrlDropCfg : RunConfig :=
  { caseId := "CASE007", threadsRaw := some 2,
    urlLines := ["https://example/videoA"], destination := "/cases" }

/-! ### Trace observation lemmas -/

theorem eventsOf_append (a b : List Action) :
    eventsOf (a ++ b) = eventsOf a ++ eventsOf b := by
  simp [eventsOf]

theorem rowsOf_append (a b : List Action) :
    rowsOf (a ++ b) = rowsOf a ++ rowsOf b := by
  simp [rowsOf]

theorem eventsOf_nil : eventsOf [] = [] := rfl

theorem rowsOf_nil : rowsOf [] = [] := rfl

theorem eventsOf_cons (a : Action) (rest : List Action) :
    eventsOf (a :: rest)
      = (match a with | Action.putEvent e => [e] | _ => []) ++ eventsOf rest := by
  cases a <;> simp [eventsOf]

theorem rowsOf_cons (a : Action) (rest : List Action) :
    rowsOf (a :: rest)
      = (match a with | Action.writeRow r => [r] | _ => []) ++ rowsOf rest := by
  cases a <;> simp [rowsOf]

theorem eventsOf_putEvents (l : List Event) (rest : List Action) :
    eventsOf (l.map Action.putEvent ++ rest) = l ++ eventsOf rest := by
  induction l with
  | nil => rfl
  | cons e t ih => simpa [eventsOf] using ih

theorem rowsOf_putEvents (l : List Event) (rest : List Action) :
    rowsOf (l.map Action.putEvent ++ rest) = rowsOf rest := by
  induction l with
  | nil => rfl
  | cons e t ih => simp [rowsOf, ih]

theorem hookEvents_no_terminal (url : String) (c : HookCall) :
    (hookEvents url c).filter isTerminal = [] := by
  rcases c with ⟨st, ps⟩
  rcases st with _ | s
  · rfl
  · simp only [hookEvents]
    split <;> simp [isTerminal]

theorem hooks_no_terminal (url : String) (hks : List HookCall) :
    ((hks.flatMap (hookEvents url)).filter isTerminal) = [] := by
  induction hks with
  | nil => rfl
  | cons c t ih => simp [List.filter_append, hookEvents_no_terminal, ih]

theorem hookEventsV1_no_terminal (url : String) (c : HookCall) :
    (hookEventsV1 url c).filter isTerminal = [] := by
  rcases c with ⟨st, ps⟩
  rcases st with _ | s
  · rfl
  · simp only [hookEventsV1]
    split <;> simp [isTerminal]

theorem hooksV1_no_terminal (url : String) (hks : List HookCall) :
    ((hks.flatMap (hookEventsV1 url)).filter isTerminal) = [] := by
  induction hks with
  | nil => rfl
  | cons c t ih => simp [List.filter_append, hookEventsV1_no_terminal, ih]

theorem hookEvents_no_finished (url : String) (c : HookCall) :
    (hookEvents url c).filter isFinished = [] := by
  rcases c with ⟨st, ps⟩
  rcases st with _ | s
  · rfl
  · simp only [hookEvents]
    split <;> simp [isFinished]

theorem hooks_no_finished (url : String) (hks : List HookCall) :
    ((hks.flatMap (hookEvents url)).filter isFinished) = [] := by
  induction hks with
  | nil => rfl
  | cons c t ih => simp [List.filter_append, hookEvents_no_finished, ih]

theorem filter_closeAct_putEvents (l : List Event) (rest : List Action) :
    (l.map Action.putEvent ++ rest).filter isCloseAct = rest.filter isCloseAct := by
  induction l with
  | nil => rfl
  | cons e t ih => simp [isCloseAct, ih]

theorem filter_dispatch_putEvents (l : List Event) (rest : List Action) :
    (l.map Action.putEvent ++ rest).filter isDispatch = rest.filter isDispatch := by
  induction l with
  | nil => rfl
  | cons e t ih => simp [isDispatch, ih]

theorem eventsOf_putEvents_pure (l : List Event) :
    eventsOf (l.map Action.putEvent) = l := by
  simpa [eventsOf_nil] using eventsOf_putEvents l []

theorem rowsOf_putEvents_pure (l : List Event) :
    rowsOf (l.map Action.putEvent) = [] := by
  simpa [rowsOf_nil] using rowsOf_putEvents l []

theorem filter_closeAct_putEvents_pure (l : List Event) :
    (l.map Action.putEvent).filter isCloseAct = [] := by
  simpa using filter_closeAct_putEvents l []

theorem filter_dispatch_putEvents_pure (l : List Event) :
    (l.map Action.putEvent).filter isDispatch = [] := by
  simpa using filter_dispatch_putEvents l []

/-! ### Per-job lemmas -/

set_option maxHeartbeats 1600000 in
/-- When the failure-path report append succeeds, every `processVideo` call
emits exactly one terminal event and appends exactly one row, both keyed by
the job's URL — whatever the fetch, digests, move, thumbnail and
success-path append did. -/
theorem jobRun_one_terminal (url vD tD lF cs : String) (env : JobEnv)
    (h : env.failAppendOk = true) :
    (terminalEvents (eventsOf (jobRun url vD tD lF cs env).trace)).length = 1
    ∧ (∀ ev ∈ terminalEvents (eventsOf (jobRun url vD tD lF cs env).trace), eventKey ev = url)
    ∧ (rowsOf (jobRun url vD tD lF cs env).trace).length = 1
    ∧ (∀ r ∈ rowsOf (jobRun url vD tD lF cs env).trace, r.url = url) := by
  rcases hf : env.fetch with e | meta
  · simp [jobRun, hf, h, failTail, failRow, terminalEvents, eventsOf_putEvents,
      rowsOf_putEvents, eventsOf_cons, eventsOf_nil, rowsOf_cons, rowsOf_nil,
      eventsOf_append, rowsOf_append, List.filter_append, hooks_no_terminal,
      eventsOf_putEvents_pure, rowsOf_putEvents_pure, isTerminal, eventKey]
  · rcases htu : meta.thumbnailUrl with _ | tu <;>
      rcases hh1 : env.hash1 with e1 | v1 <;>
        rcases hmv : env.moveRes with em | _ <;>
          rcases hh2 : env.hash2 with e2 | v2 <;>
            rcases hap : env.appendOk <;>
              simp [jobRun, hf, htu, hh1, hmv, hh2, hap, h, failTail, failRow,
                terminalEvents, eventsOf_putEvents, rowsOf_putEvents, eventsOf_cons,
                eventsOf_nil, rowsOf_cons, rowsOf_nil, eventsOf_append, rowsOf_append,
                List.filter_append, hooks_no_terminal, eventsOf_putEvents_pure,
                rowsOf_putEvents_pure, isTerminal, eventKey]

set_option maxHeartbeats 1600000 in
/-- A job never closes the report, never emits the run-level FINISHED
event, never creates a pool and never submits work — those actions belong
to `App.startCase` alone.  Holds for every environment, including one
whose failure-path append raises. -/
theorem jobRun_no_run_level (url vD tD lF cs : String) (env : JobEnv) :
    (jobRun url vD tD lF cs env).trace.filter isCloseAct = []
    ∧ (eventsOf (jobRun url vD tD lF cs env).trace).filter isFinished = []
    ∧ (jobRun url vD tD lF cs env).trace.filter isDispatch = [] := by
  rcases hf : env.fetch with e | meta
  · rcases hfa : env.failAppendOk <;>
      simp [jobRun, hf, hfa, failTail, failRow, eventsOf_putEvents, eventsOf_cons,
        eventsOf_nil, eventsOf_append, List.filter_append, hooks_no_finished,
        isCloseAct, isDispatch, isFinished, filter_closeAct_putEvents,
        filter_dispatch_putEvents, eventsOf_putEvents_pure,
        filter_closeAct_putEvents_pure, filter_dispatch_putEvents_pure,
        -List.filter_eq_nil_iff]
  · rcases htu : meta.thumbnailUrl with _ | tu <;>
      rcases hh1 : env.hash1 with e1 | v1 <;>
        rcases hmv : env.moveRes with em | _ <;>
          rcases hh2 : env.hash2 with e2 | v2 <;>
            rcases hap : env.appendOk <;>
              rcases hfa : env.failAppendOk <;>
                simp [jobRun, hf, htu, hh1, hmv, hh2, hap, hfa, failTail, failRow,
                  eventsOf_putEvents, eventsOf_cons, eventsOf_nil, eventsOf_append,
                  List.filter_append, hooks_no_finished, isCloseAct, isDispatch,
                  isFinished, filter_closeAct_putEvents, filter_dispatch_putEvents,
                  eventsOf_putEvents_pure, filter_closeAct_putEvents_pure,
                  filter_dispatch_putEvents_pure, -List.filter_eq_nil_iff]

/-! ### Run-level lemmas -/

theorem runCase_ok (cfg : RunConfig) (envOf : String → JobEnv)
    (hv : validCfg cfg = true) :
    runCase cfg envOf = Except.ok (runOutOf cfg envOf) := by
  have h := hv
  simp only [validCfg, Bool.and_eq_true, decide_eq_true_eq] at h
  simp [runCase, h.1.1, h.1.2, h.2]

theorem runOutOf_trace (cfg : RunConfig) (envOf : String → JobEnv) :
    (runOutOf cfg envOf).trace
      = [Action.mkdir (videoDirOf cfg), Action.mkdir (thumbDirOf cfg),
         Action.createLog (logFileOf cfg), Action.createPool (effectiveThreads cfg)]
        ++ (cleanUrls cfg.urlLines).flatMap
            (fun u => Action.submit u :: jobTrace cfg envOf u)
        ++ [Action.closeLog (logFileOf cfg),
            Action.putEvent (Event.finished (logFileOf cfg))] := rfl

theorem eventsOf_jobs (cfg : RunConfig) (envOf : String → JobEnv) :
    ∀ urls : List String,
      eventsOf (urls.flatMap (fun u => Action.submit u :: jobTrace cfg envOf u))
        = urls.flatMap (fun u => eventsOf (jobTrace cfg envOf u)) := by
  intro urls
  induction urls with
  | nil => rfl
  | cons u t ih => simp [List.flatMap_cons, eventsOf_append, eventsOf_cons, ih]

theorem rowsOf_jobs (cfg : RunConfig) (envOf : String → JobEnv) :
    ∀ urls : List String,
      rowsOf (urls.flatMap (fun u => Action.submit u :: jobTrace cfg envOf u))
        = urls.flatMap (fun u => rowsOf (jobTrace cfg envOf u)) := by
  intro urls
  induction urls with
  | nil => rfl
  | cons u t ih => simp [List.flatMap_cons, rowsOf_append, rowsOf_cons, ih]

theorem filter_flatMap_comm {α β : Type} (p : β → Bool) (f : α → List β) :
    ∀ l : List α, (l.flatMap f).filter p = l.flatMap (fun a => (f a).filter p) := by
  intro l
  induction l with
  | nil => rfl
  | cons a t ih => simp [List.flatMap_cons, List.filter_append, ih]

theorem length_flatMap_ones {β : Type} (g : String → List β) :
    ∀ urls : List String, (∀ x ∈ urls, (g x).length = 1) →
      (urls.flatMap g).length = urls.length := by
  intro urls
  induction urls with
  | nil => intro _; rfl
  | cons x t ih =>
    intro h
    have hx := h x (by simp)
    have iht := ih (fun y hy => h y (by simp [hy]))
    simp [List.flatMap_cons, hx, iht]
    omega

theorem filter_key_count {β : Type} (key : β → String) (g : String → List β) (u : String) :
    ∀ urls : List String,
      (∀ x ∈ urls, (g x).length = 1 ∧ ∀ b ∈ g x, key b = x) →
      ((urls.flatMap g).filter (fun b => key b == u)).length
        = (urls.filter (fun x => x == u)).length := by
  intro urls
  induction urls with
  | nil => intro _; rfl
  | cons x t ih =>
    intro h
    obtain ⟨b, hb⟩ := List.length_eq_one.mp (h x (by simp)).1
    have hkb : key b = x := (h x (by simp)).2 b (by simp [hb])
    have iht := ih (fun y hy => h y (by simp [hy]))
    by_cases hxu : x = u
    · subst hxu
      simp [List.flatMap_cons, List.filter_append, hb, List.filter_cons, hkb, iht]
    · simp [List.flatMap_cons, List.filter_append, hb, List.filter_cons, hkb, hxu, iht]

theorem done_failed_split : ∀ evs : List Event,
    (evs.filter isDone).length + (evs.filter isFailed).length
      = (evs.filter isTerminal).length := by
  intro evs
  induction evs with
  | nil => rfl
  | cons e t ih => cases e <;> simp [isDone, isFailed, isTerminal, List.filter_cons, ih] <;> omega

theorem jobs_no_close (cfg : RunConfig) (envOf : String → JobEnv) :
    ∀ urls : List String,
      (urls.flatMap (fun u => Action.submit u :: jobTrace cfg envOf u)).filter isCloseAct
        = [] := by
  intro urls
  induction urls with
  | nil => rfl
  | cons u t ih =>
    have hj : (jobTrace cfg envOf u).filter isCloseAct = [] :=
      (jobRun_no_run_level u (videoDirOf cfg) (thumbDirOf cfg) (logFileOf cfg)
        (strip cfg.caseId) (envOf u)).1
    simp [List.flatMap_cons, List.filter_append, List.filter_cons, isCloseAct, ih, hj,
      -List.filter_eq_nil_iff]

theorem jobs_no_finished_event (cfg : RunConfig) (envOf : String → JobEnv) :
    ∀ urls : List String,
      (eventsOf (urls.flatMap (fun u => Action.submit u :: jobTrace cfg envOf u))).filter
        isFinished = [] := by
  intro urls
  induction urls with
  | nil => rfl
  | cons u t ih =>
    have hj : (eventsOf (jobTrace cfg envOf u)).filter isFinished = [] :=
      (jobRun_no_run_level u (videoDirOf cfg) (thumbDirOf cfg) (logFileOf cfg)
        (strip cfg.caseId) (envOf u)).2.1
    simp [List.flatMap_cons, eventsOf_append, eventsOf_cons, List.filter_append, ih, hj,
      -List.filter_eq_nil_iff]

theorem jobs_dispatch (cfg : RunConfig) (envOf : String → JobEnv) :
    ∀ urls : List String,
      (urls.flatMap (fun u => Action.submit u :: jobTrace cfg envOf u)).filter isDispatch
        = urls.map Action.submit := by
  intro urls
  induction urls with
  | nil => rfl
  | cons u t ih =>
    have hj : (jobTrace cfg envOf u).filter isDispatch = [] :=
      (jobRun_no_run_level u (videoDirOf cfg) (thumbDirOf cfg) (logFileOf cfg)
        (strip cfg.caseId) (envOf u)).2.2
    simp [List.flatMap_cons, List.filter_append, List.filter_cons, isDispatch, ih, hj,
      -List.filter_eq_nil_iff]

/-! ### Path and straddle helpers -/

theorem basename_step_no_slash :
    ∀ (cs : List Char) (a : List Char), cs.all (fun c => c ≠ '/') = true →
      List.foldl (fun acc c => if c = '/' then [] else acc ++ [c]) a cs = a ++ cs := by
  intro cs
  induction cs with
  | nil => intro a _; simp
  | cons c t ih =>
    intro a h
    simp only [List.all_cons, Bool.and_eq_true, decide_eq_true_eq] at h
    simp [List.foldl_cons, h.1, ih (a ++ [c]) h.2]

/-- `os.path.basename(os.path.join(d, name)) == name` whenever `name` has
no separator — as is the case for the report filename and for the rendered
output template's filename component. -/
theorem basename_joinPath (d name : String)
    (h : name.data.all (fun c => c ≠ '/') = true) :
    basename (joinPath d name) = name := by
  rcases name with ⟨nd⟩
  simp only [basename, joinPath]
  have hd : ((d ++ "/" ++ (⟨nd⟩ : String)).data) = (d.data ++ ['/']) ++ nd := by
    simp [String.data_append]
  rw [hd, List.foldl_append, List.foldl_append]
  simp only [List.foldl_cons, List.foldl_nil, if_pos rfl, if_true]
  simp [basename_step_no_slash nd [] h]

theorem straddles_putEvents (temp fin : String) (l : List Event) (rest : List Action) :
    hashStraddlesMove temp fin (l.map Action.putEvent ++ rest)
      = hashStraddlesMove temp fin rest := by
  induction l with
  | nil => rfl
  | cons e t ih => simp [hashStraddlesMove, ih]

theorem writesLockedGo_putEvents (lk : String) (d : Nat) (l : List Event)
    (rest : List Action) :
    writesLockedGo lk d (l.map Action.putEvent ++ rest) = writesLockedGo lk d rest := by
  induction l with
  | nil => rfl
  | cons e t ih => simp [writesLockedGo, ih]

/-! ### The claims -/

/-- C5: for every requested worker count, the pool size actually used is
`max(1, min(32, threads))` (4 when the spinbox text fails to parse as an
integer), which always lies in `[1, 32]`; in the run trace the pool is
created before any job is submitted (`src/main.py:580-584`, 623-628). -/
theorem C5_threads_clamped (cfg : RunConfig) (envOf : String → JobEnv) :
    1 ≤ effectiveThreads cfg ∧ effectiveThreads cfg ≤ 32
    ∧ (runOutOf cfg envOf).threads = effectiveThreads cfg
    ∧ (runOutOf cfg envOf).trace.filter isDispatch
        = Action.createPool (effectiveThreads cfg)
            :: (cleanUrls cfg.urlLines).map Action.submit := by
  refine ⟨?_, ?_, rfl, ?_⟩
  · unfold effectiveThreads
    rcases cfg.threadsRaw with _ | t
    · norm_num
    · exact le_max_left 1 _
  · unfold effectiveThreads
    rcases cfg.threadsRaw with _ | t
    · norm_num
    · exact max_le (by norm_num) (min_le_left 32 t)
  · rw [runOutOf_trace]
    simp [List.filter_append, List.filter_cons, isDispatch,
      jobs_dispatch cfg envOf (cleanUrls cfg.urlLines)]

/-- C6: every report-row write `processVideo` performs — on the success
path and on the failure path — happens strictly inside the
`with logLock:` region of the single module-level lock
(`src/main.py:31`, 215-228, 233-246). -/
theorem C6_report_writes_locked (url vD tD lF cs : String) (env : JobEnv) :
    writesLocked "logLock" (jobRun url vD tD lF cs env).trace = true := by
  rcases hf : env.fetch with e | meta
  · rcases hfa : env.failAppendOk <;>
      simp [jobRun, hf, hfa, failTail, writesLocked, writesLockedGo_putEvents,
        writesLockedGo]
  · rcases htu : meta.thumbnailUrl with _ | tu <;>
      rcases hh1 : env.hash1 with e1 | v1 <;>
        rcases hmv : env.moveRes with em | _ <;>
          rcases hh2 : env.hash2 with e2 | v2 <;>
            rcases hap : env.appendOk <;>
              rcases hfa : env.failAppendOk <;>
                simp [jobRun, hf, htu, hh1, hmv, hh2, hap, hfa, failTail,
                  writesLocked, writesLockedGo_putEvents, writesLockedGo]

/-- C9: the progress hook is total and defensive: a `"downloading"`
callback yields exactly one PROGRESS event whose percent is the
defensively parsed `_percent_str` (an unparsable string yields percent 0
rather than an exception), and a `"finished"` callback yields exactly one
MERGING event at 99 (`src/main.py:158-167`). -/
theorem C9_hook_defensive (url : String) (c : HookCall) :
    (c.status = some "downloading" →
      hookEvents url c
        = [Event.progress url
            ((parseDec (strip (dropPct (c.percentStr.getD "0%")))).getD 0)])
    ∧ (c.status = some "downloading" →
        parseDec (strip (dropPct (c.percentStr.getD "0%"))) = none →
        hookEvents url c = [Event.progress url 0])
    ∧ (c.status = some "finished" → hookEvents url c = [Event.merging url 99]) := by
  refine ⟨fun h => ?_, fun h hp => ?_, fun h => ?_⟩
  · simp [hookEvents, h]
  · simp [hookEvents, h, hp]
  · simp [hookEvents, h]

/-- Witness for C9: a `"downloading"` callback whose percent string is the
unparsable `"N/A"` produces one PROGRESS event at percent 0. -/
theorem C9_hook_defensive_witness :
    hookEvents "https://example/videoA" ⟨some "downloading", some "N/A"⟩
      = [Event.progress "https://example/videoA" 0] :=
  (C9_hook_defensive "https://example/videoA"
    ⟨some "downloading", some "N/A"⟩).2.1 rfl (by decide)

/-- Counterexample to C1 as stated: with `hashBefore1 ≠ hashAfter2`, the
report row does get the dedicated `HASH_MISMATCH` status, but the row
carries only `hashAfter2` (never `hashBefore1`), and the single terminal
UI event is `("u", "DONE", hash2)` — the very same success event the
`VERIFIED` path emits, which `updatingUI` renders as `VERIFIED`
(`src/main.py:230`, 666-669).  The terminal event does not reflect the
mismatch. -/
theorem C1_mismatch_event_is_done_cex :
    terminalEvents (eventsOf (jobRun "u" "/d/C/Videos" "/d/C/Thumbnails"
        "/d/C/C_report.html" "C" mismatchEnv).trace)
      = [Event.done "u" "hashAfter2"]
    ∧ (rowsOf (jobRun "u" "/d/C/Videos" "/d/C/Thumbnails"
        "/d/C/C_report.html" "C" mismatchEnv).trace).map (fun r => (r.status, r.sha))
      = [("HASH_MISMATCH", "hashAfter2")] := by
  decide

/-- C1 as amended: when the two digests disagree, the single appended row
has the dedicated status `HASH_MISMATCH` — distinct from both `VERIFIED`
and `FAILED` — and carries the relative link to the final path together
with `hashAfter` only (not `hashBefore`), while the single terminal event
is `DONE` with `hashAfter`, identical in kind to the success event. -/
theorem C1_mismatch_row_and_event (url vD tD lF cs : String) (env : JobEnv)
    (meta : FetchMeta) (h1 h2 : String)
    (hf : env.fetch = Except.ok meta) (hh1 : env.hash1 = Except.ok h1)
    (hmv : env.moveRes = Except.ok ()) (hh2 : env.hash2 = Except.ok h2)
    (hap : env.appendOk = true) (hne : h1 ≠ h2) :
    (rowsOf (jobRun url vD tD lF cs env).trace).map (fun r => (r.status, r.sha, r.href))
      = [("HASH_MISMATCH", h2,
          toRelHref (joinPath vD (basename (prepareFilename vD cs meta.title meta.ext)))
            (dirname lF))]
    ∧ terminalEvents (eventsOf (jobRun url vD tD lF cs env).trace)
        = [Event.done url h2]
    ∧ ("HASH_MISMATCH" : String) ≠ "VERIFIED"
    ∧ ("HASH_MISMATCH" : String) ≠ "FAILED" := by
  refine ⟨?_, ?_, by decide, by decide⟩ <;>
    rcases htu : meta.thumbnailUrl with _ | tu <;>
      simp [jobRun, hf, htu, hh1, hmv, hh2, hap, hne, failTail, terminalEvents,
        eventsOf_putEvents, rowsOf_putEvents, eventsOf_putEvents_pure,
        rowsOf_putEvents_pure, eventsOf_cons, eventsOf_nil,
        rowsOf_cons, rowsOf_nil, eventsOf_append, rowsOf_append,
        List.filter_append, hooks_no_terminal, isTerminal, -List.filter_eq_nil_iff]

/-- Witness for C1: the amended statement at the concrete mismatch
environment. -/
theorem C1_mismatch_row_and_event_witness :
    (rowsOf (jobRun "u" "/d/C/Videos" "/d/C/Thumbnails" "/d/C/C_report.html"
        "C" mismatchEnv).trace).map (fun r => (r.status, r.sha, r.href))
      = [("HASH_MISMATCH", "hashAfter2",
          toRelHref (joinPath "/d/C/Videos"
              (basename (prepareFilename "/d/C/Videos" "C" "vid" "mp4")))
            (dirname "/d/C/C_report.html"))]
    ∧ terminalEvents (eventsOf (jobRun "u" "/d/C/Videos" "/d/C/Thumbnails"
        "/d/C/C_report.html" "C" mismatchEnv).trace)
        = [Event.done "u" "hashAfter2"]
    ∧ ("HASH_MISMATCH" : String) ≠ "VERIFIED"
    ∧ ("HASH_MISMATCH" : String) ≠ "FAILED" :=
  C1_mismatch_row_and_event "u" "/d/C/Videos" "/d/C/Thumbnails" "/d/C/C_report.html"
    "C" mismatchEnv ⟨"vid", "id1", "mp4", none⟩ "hashBefore1" "hashAfter2"
    rfl rfl rfl rfl rfl (by decide)

/-- Counterexample to C3 as stated: on a fully successful job the single
`shutil.move` the code performs has identical source and destination —
`outtmpl` already points into the final `Videos` directory
(`src/main.py:173`), so `finalPath = os.path.join(videoDir,
os.path.basename(temp_path))` equals `temp_path` (lines 204-205) and no
actual relocation into a distinct directory happens. -/
theorem C3_move_not_relocation_cex :
    movesOf (jobRun "https://example/videoA" "/cases/CASE007/Videos"
        "/cases/CASE007/Thumbnails" "/cases/CASE007/CASE007_report.html"
        "CASE007" okEnv).trace
      = [("/cases/CASE007/Videos/CASE007_clip.mp4",
          "/cases/CASE007/Videos/CASE007_clip.mp4")] := by
  decide

/-- C3 as amended: `hash1` is computed at the engine-reported path, then
`shutil.move(temp_path, finalPath)` runs, then `hash2` is computed at
`finalPath` — the two digest calls do straddle the move call in program
order — but because the output template already places the artifact in the
final `Videos` directory, whenever the rendered filename contains no path
separator the move's destination equals its source: the digests straddle a
same-path move, not an actual relocation. -/
theorem C3_hashes_straddle_samepath_move (url vD tD lF cs : String) (env : JobEnv)
    (meta : FetchMeta) (h1 h2 : String)
    (hf : env.fetch = Except.ok meta) (hh1 : env.hash1 = Except.ok h1)
    (hmv : env.moveRes = Except.ok ()) (hh2 : env.hash2 = Except.ok h2) :
    hashStraddlesMove (prepareFilename vD cs meta.title meta.ext)
        (joinPath vD (basename (prepareFilename vD cs meta.title meta.ext)))
        (jobRun url vD tD lF cs env).trace = true
    ∧ ((cs ++ "_" ++ meta.title ++ "." ++ meta.ext).data.all (fun c => c ≠ '/') = true →
        joinPath vD (basename (prepareFilename vD cs meta.title meta.ext))
          = prepareFilename vD cs meta.title meta.ext) := by
  constructor
  · rcases htu : meta.thumbnailUrl with _ | tu <;>
      rcases hap : env.appendOk <;>
        rcases hfa : env.failAppendOk <;>
          simp [jobRun, hf, htu, hh1, hmv, hh2, hap, hfa, failTail,
            straddles_putEvents, hashStraddlesMove]
  · intro hsl
    unfold prepareFilename
    rw [basename_joinPath vD _ hsl]

/-- Witness for C3: the straddle and the same-path collapse at the
concrete CASE007 run. -/
theorem C3_hashes_straddle_samepath_move_witness :
    hashStraddlesMove (prepareFilename "/cases/CASE007/Videos" "CASE007" "clip" "mp4")
        (joinPath "/cases/CASE007/Videos"
          (basename (prepareFilename "/cases/CASE007/Videos" "CASE007" "clip" "mp4")))
        (jobRun "https://example/videoA" "/cases/CASE007/Videos"
          "/cases/CASE007/Thumbnails" "/cases/CASE007/CASE007_report.html"
          "CASE007" okEnv).trace = true
    ∧ joinPath "/cases/CASE007/Videos"
        (basename (prepareFilename "/cases/CASE007/Videos" "CASE007" "clip" "mp4"))
        = prepareFilename "/cases/CASE007/Videos" "CASE007" "clip" "mp4" :=
  have h := C3_hashes_straddle_samepath_move "https://example/videoA"
    "/cases/CASE007/Videos" "/cases/CASE007/Thumbnails"
    "/cases/CASE007/CASE007_report.html" "CASE007" okEnv
    ⟨"clip", "id1", "mp4", none⟩ "h" "h" rfl rfl rfl rfl
  ⟨h.1, h.2 (by decide)⟩

/-- Counterexample to C7 as stated: in revision 1.2.1 (the only revision
that hashes thumbnails, `src/unnamed/part_000:148`), a raising thumbnail
digest after a successful thumbnail download reaches the job's `except`
branch and the job terminates FAILED — even though the primary download
and both primary digests succeeded (they agree here, so the job would have
been VERIFIED).  Revision 2.0.0, which never hashes the thumbnail, still
ends DONE on the same environment. -/
theorem C7_thumb_hash_fail_fails_job_cex :
    terminalEvents (eventsOf (jobRunV1 "u" "/d/C/Videos" "/d/C/Thumbnails"
        "/d/C/C_report.html" "C" thumbHashFailEnv).trace)
      = [Event.failed "u" "thumbnail digest error"]
    ∧ terminalEvents (eventsOf (jobRun "u" "/d/C/Videos" "/d/C/Thumbnails"
        "/d/C/C_report.html" "C" thumbHashFailEnv).trace)
      = [Event.done "u" "h"] := by
  decide

/-- C7 as amended: a thumbnail *download* failure never changes the
terminal outcome — revision 2.0.0 ignores the download result entirely
(and computes no thumbnail hash at all), and revision 1.2.1 then skips
hashing and records `N/A` in its thumbnail-hash column; only a raising
thumbnail digest in revision 1.2.1 can fail the job
(see `C7_thumb_hash_fail_fails_job_cex`). -/
theorem C7_thumb_best_effort_amended (url vD tD lF cs : String) (env : JobEnv)
    (meta : FetchMeta) (h1 h2 : String)
    (hf : env.fetch = Except.ok meta) (hh1 : env.hash1 = Except.ok h1)
    (hmv : env.moveRes = Except.ok ()) (hh2 : env.hash2 = Except.ok h2)
    (hap : env.appendOk = true) :
    terminalEvents (eventsOf (jobRun url vD tD lF cs env).trace) = [Event.done url h2]
    ∧ (env.thumbOk = false →
        terminalEvents (eventsOf (jobRunV1 url vD tD lF cs env).trace)
          = [Event.done url h2]
        ∧ (rowsOf (jobRunV1 url vD tD lF cs env).trace).map Row.thumbSha
            = [some "N/A"]) := by
  constructor
  · rcases htu : meta.thumbnailUrl with _ | tu <;>
      simp [jobRun, hf, htu, hh1, hmv, hh2, hap, failTail, terminalEvents,
        eventsOf_putEvents, eventsOf_putEvents_pure, eventsOf_cons, eventsOf_nil,
        eventsOf_append, List.filter_append, hooks_no_terminal, isTerminal,
        -List.filter_eq_nil_iff]
  · intro hto
    have : terminalEvents (eventsOf (jobRunV1 url vD tD lF cs env).trace)
          = [Event.done url h2]
        ∧ (rowsOf (jobRunV1 url vD tD lF cs env).trace).map Row.thumbSha
          = [some "N/A"] := by
      constructor <;>
        rcases htu : meta.thumbnailUrl with _ | tu <;>
          simp [jobRunV1, hf, htu, hh1, hmv, hh2, hap, hto, failTail, terminalEvents,
            eventsOf_putEvents, rowsOf_putEvents, eventsOf_putEvents_pure,
            rowsOf_putEvents_pure, eventsOf_cons, eventsOf_nil,
            rowsOf_cons, rowsOf_nil, eventsOf_append, rowsOf_append,
            List.filter_append, hooksV1_no_terminal, isTerminal,
            -List.filter_eq_nil_iff]
    exact this

/-- Witness for C7: both revisions end DONE when only the thumbnail
download fails, and revision 1.2.1 records `N/A` for the thumbnail hash. -/
theorem C7_thumb_best_effort_amended_witness :
    terminalEvents (eventsOf (jobRun "u" "/d/C/Videos" "/d/C/Thumbnails"
        "/d/C/C_report.html" "C" thumbFetchFailEnv).trace) = [Event.done "u" "h"]
    ∧ terminalEvents (eventsOf (jobRunV1 "u" "/d/C/Videos" "/d/C/Thumbnails"
        "/d/C/C_report.html" "C" thumbFetchFailEnv).trace) = [Event.done "u" "h"]
    ∧ (rowsOf (jobRunV1 "u" "/d/C/Videos" "/d/C/Thumbnails"
        "/d/C/C_report.html" "C" thumbFetchFailEnv).trace).map Row.thumbSha
        = [some "N/A"] :=
  have h := C7_thumb_best_effort_amended "u" "/d/C/Videos" "/d/C/Thumbnails"
    "/d/C/C_report.html" "C" thumbFetchFailEnv
    ⟨"vid", "id1", "mp4", some "http://thumb"⟩ "h" "h" rfl rfl rfl rfl rfl
  ⟨h.1, (h.2 rfl).1, (h.2 rfl).2⟩

/-- C8: a configuration with an empty case number, an empty cleaned URL
list, or an empty destination is rejected by `startCase` with an error,
and the rejected call performs no action at all — no directory is made, no
report file is created, no pool is built and no job is submitted
(`src/main.py:574-596`). -/
theorem C8_invalid_config_rejected (cfg : RunConfig) (envOf : String → JobEnv)
    (h : strip cfg.caseId = "" ∨ cleanUrls cfg.urlLines = []
          ∨ strip cfg.destination = "") :
    runActions (runCase cfg envOf) = []
    ∧ ∃ err, runCase cfg envOf = Except.error err := by
  have hex : ∃ err, runCase cfg envOf = Except.error err := by
    unfold runCase
    rcases h with h | h | h
    · exact ⟨ConfigError.missingCase, by simp [h]⟩
    · by_cases hc : strip cfg.caseId = ""
      · exact ⟨ConfigError.missingCase, by simp [hc]⟩
      · exact ⟨ConfigError.noUrls, by simp [hc, h]⟩
    · by_cases hc : strip cfg.caseId = ""
      · exact ⟨ConfigError.missingCase, by simp [hc]⟩
      · by_cases hu : cleanUrls cfg.urlLines = []
        · exact ⟨ConfigError.noUrls, by simp [hc, hu]⟩
        · exact ⟨ConfigError.noDestination, by simp [hc, hu, h]⟩
  obtain ⟨err, he⟩ := hex
  exact ⟨by simp [he, runActions], ⟨err, he⟩⟩

/-- Witness for C8: a run submitted with no URLs is rejected and performs
nothing. -/
theorem C8_invalid_config_rejected_witness :
    runActions (runCase
        { caseId := "CASE007", threadsRaw := some 4, urlLines := [],
          destination := "/cases" } (fun _ => okEnv)) = []
    ∧ ∃ err, runCase
        { caseId := "CASE007", threadsRaw := some 4, urlLines := [],
          destination := "/cases" } (fun _ => okEnv) = Except.error err :=
  C8_invalid_config_rejected _ _ (Or.inr (Or.inl rfl))

/-- C10: when the fetch fails and the failure-path report append itself
raises, the exception propagates out of `processVideo` and no terminal
event reaches the queue (and no row is written); when the append succeeds,
the FAILED event is placed on the queue only after the row write, inside
the trace `… acquire, writeRow, release, putEvent FAILED`
(`src/main.py:232-247`). -/
theorem C10_failed_append_drops_event (url vD tD lF cs e : String) (env : JobEnv)
    (hf : env.fetch = Except.error e) :
    (env.failAppendOk = false →
        (jobRun url vD tD lF cs env).raised = some e
        ∧ terminalEvents (eventsOf (jobRun url vD tD lF cs env).trace) = []
        ∧ rowsOf (jobRun url vD tD lF cs env).trace = [])
    ∧ (env.failAppendOk = true →
        (jobRun url vD tD lF cs env).trace
          = (env.hooks.flatMap (hookEvents url)).map Action.putEvent
            ++ [Action.acquire "logLock", Action.writeRow (failRow url e none),
                Action.release "logLock", Action.putEvent (Event.failed url e)]) := by
  constructor
  · intro hfa
    refine ⟨?_, ?_, ?_⟩ <;>
      simp [jobRun, hf, hfa, failTail, terminalEvents, eventsOf_putEvents,
        rowsOf_putEvents, eventsOf_putEvents_pure, rowsOf_putEvents_pure,
        eventsOf_cons, eventsOf_nil, rowsOf_cons, rowsOf_nil,
        eventsOf_append, rowsOf_append, hooks_no_terminal, List.filter_append,
        -List.filter_eq_nil_iff]
  · intro hfa
    simp [jobRun, hf, hfa, failTail]

/-- Witness for C10: the fetch raises `"disk full"`-style append failure:
the job re-raises, no terminal event, no row. -/
theorem C10_failed_append_drops_event_witness :
    (jobRun "u" "/d/C/Videos" "/d/C/Thumbnails" "/d/C/C_report.html" "C"
        fetchFailNoAppendEnv).raised = some "disk full"
    ∧ terminalEvents (eventsOf (jobRun "u" "/d/C/Videos" "/d/C/Thumbnails"
        "/d/C/C_report.html" "C" fetchFailNoAppendEnv).trace) = []
    ∧ rowsOf (jobRun "u" "/d/C/Videos" "/d/C/Thumbnails" "/d/C/C_report.html" "C"
        fetchFailNoAppendEnv).trace = [] :=
  (C10_failed_append_drops_event "u" "/d/C/Videos" "/d/C/Thumbnails"
    "/d/C/C_report.html" "C" "disk full" fetchFailNoAppendEnv rfl).1 rfl

/-- C4: on every accepted run — whatever each job's environment did,
including jobs that failed — the trace contains exactly one report close,
and exactly one run-level FINISHED event naming the report path is placed
on the queue, after all job traces (`src/main.py:630-636`). -/
theorem C4_finalize_once (cfg : RunConfig) (envOf : String → JobEnv)
    (hv : validCfg cfg = true) :
    runCase cfg envOf = Except.ok (runOutOf cfg envOf)
    ∧ (runOutOf cfg envOf).trace.filter isCloseAct = [Action.closeLog (logFileOf cfg)]
    ∧ (eventsOf (runOutOf cfg envOf).trace).filter isFinished
        = [Event.finished (logFileOf cfg)] := by
  refine ⟨runCase_ok cfg envOf hv, ?_, ?_⟩
  · rw [runOutOf_trace]
    simp [List.filter_append, List.filter_cons, isCloseAct,
      jobs_no_close cfg envOf (cleanUrls cfg.urlLines), -List.filter_eq_nil_iff]
  · rw [runOutOf_trace]
    simp [eventsOf_append, eventsOf_cons, eventsOf_nil, List.filter_append,
      List.filter_cons, isFinished,
      jobs_no_finished_event cfg envOf (cleanUrls cfg.urlLines),
      -List.filter_eq_nil_iff]

/-- Witness for C4: the concrete two-URL run (one job succeeds, one fails)
closes the report once and emits one FINISHED event naming it. -/
theorem C4_finalize_once_witness :
    runCase twoUrlCfg twoUrlEnvOf = Except.ok (runOutOf twoUrlCfg twoUrlEnvOf)
    ∧ (runOutOf twoUrlCfg twoUrlEnvOf).trace.filter isCloseAct
        = [Action.closeLog (logFileOf twoUrlCfg)]
    ∧ (eventsOf (runOutOf twoUrlCfg twoUrlEnvOf).trace).filter isFinished
        = [Event.finished (logFileOf twoUrlCfg)] :=
  C4_finalize_once twoUrlCfg twoUrlEnvOf (by decide)

/-- Counterexample to C2 as stated: an accepted run over one submitted URL
(`k = 1`) in which the job fails at fetch and its FAILED-row append itself
raises produces zero terminal events and zero report rows — the URL is
silently dropped and `done + failed = 0 ≠ k` (the `except` branch of
`processVideo` appends before putting the event and is not itself guarded,
`src/main.py:232-247`; see also `C10_failed_append_drops_event`). -/
theorem C2_dropped_url_cex :
    validCfg oneUrlDropCfg = true
    ∧ (cleanUrls oneUrlDropCfg.urlLines).length = 1
    ∧ terminalEvents (eventsOf (runOutOf oneUrlDropCfg
        (fun _ => fetchFailNoAppendEnv)).trace) = []
    ∧ rowsOf (runOutOf oneUrlDropCfg (fun _ => fetchFailNoAppendEnv)).trace = [] := by
  decide

/-- C2 as amended: provided every failure-path report append succeeds,
each of the `k` cleaned URLs yields exactly one terminal (DONE or FAILED)
event keyed by that URL and exactly one report row keyed by that URL — in
total `k` terminal events, `k` rows, and `done + failed = k`
(`src/main.py:157-247`, 612-636).  Without that proviso the invariant
fails: a failed job whose FAILED-row append raises contributes no terminal
event and no row (`C2_dropped_url_cex`). -/
theorem C2_one_terminal_per_url (cfg : RunConfig) (envOf : String → JobEnv)
    (hv : validCfg cfg = true)
    (hok : ∀ u, (envOf u).failAppendOk = true) :
    runCase cfg envOf = Except.ok (runOutOf cfg envOf)
    ∧ (terminalEvents (eventsOf (runOutOf cfg envOf).trace)).length
        = (cleanUrls cfg.urlLines).length
    ∧ (∀ u, ((terminalEvents (eventsOf (runOutOf cfg envOf).trace)).filter
          (fun ev => eventKey ev == u)).length
        = ((cleanUrls cfg.urlLines).filter (fun x => x == u)).length)
    ∧ (rowsOf (runOutOf cfg envOf).trace).length = (cleanUrls cfg.urlLines).length
    ∧ (∀ u, ((rowsOf (runOutOf cfg envOf).trace).filter (fun r => r.url == u)).length
        = ((cleanUrls cfg.urlLines).filter (fun x => x == u)).length)
    ∧ ((eventsOf (runOutOf cfg envOf).trace).filter isDone).length
        + ((eventsOf (runOutOf cfg envOf).trace).filter isFailed).length
        = (cleanUrls cfg.urlLines).length := by
  have hev : eventsOf (runOutOf cfg envOf).trace
      = (cleanUrls cfg.urlLines).flatMap (fun u => eventsOf (jobTrace cfg envOf u))
        ++ [Event.finished (logFileOf cfg)] := by
    rw [runOutOf_trace]
    simp [eventsOf_append, eventsOf_cons, eventsOf_nil,
      eventsOf_jobs cfg envOf (cleanUrls cfg.urlLines)]
  have hrows : rowsOf (runOutOf cfg envOf).trace
      = (cleanUrls cfg.urlLines).flatMap (fun u => rowsOf (jobTrace cfg envOf u)) := by
    rw [runOutOf_trace]
    simp [rowsOf_append, rowsOf_cons, rowsOf_nil,
      rowsOf_jobs cfg envOf (cleanUrls cfg.urlLines)]
  have hterm : terminalEvents (eventsOf (runOutOf cfg envOf).trace)
      = (cleanUrls cfg.urlLines).flatMap
          (fun u => terminalEvents (eventsOf (jobTrace cfg envOf u))) := by
    rw [hev]
    unfold terminalEvents
    rw [List.filter_append, filter_flatMap_comm]
    simp [isTerminal, List.filter_cons]
  have hjob : ∀ u, (terminalEvents (eventsOf (jobTrace cfg envOf u))).length = 1
      ∧ (∀ ev ∈ terminalEvents (eventsOf (jobTrace cfg envOf u)), eventKey ev = u)
      ∧ (rowsOf (jobTrace cfg envOf u)).length = 1
      ∧ (∀ r ∈ rowsOf (jobTrace cfg envOf u), r.url = u) :=
    fun u => jobRun_one_terminal u (videoDirOf cfg) (thumbDirOf cfg) (logFileOf cfg)
      (strip cfg.caseId) (envOf u) (hok u)
  have hlen : (terminalEvents (eventsOf (runOutOf cfg envOf).trace)).length
      = (cleanUrls cfg.urlLines).length := by
    rw [hterm]
    exact length_flatMap_ones _ _ (fun x _ => (hjob x).1)
  refine ⟨runCase_ok cfg envOf hv, hlen, ?_, ?_, ?_, ?_⟩
  · intro u
    rw [hterm]
    exact filter_key_count eventKey _ u _ (fun x _ => ⟨(hjob x).1, (hjob x).2.1⟩)
  · rw [hrows]
    exact length_flatMap_ones _ _ (fun x _ => (hjob x).2.2.1)
  · intro u
    rw [hrows]
    exact filter_key_count Row.url _ u _ (fun x _ => ⟨(hjob x).2.2.1, (hjob x).2.2.2⟩)
  · rw [done_failed_split]
    exact hlen

/-- Witness for C2: the concrete two-URL run — one Verified, one Failed —
has two terminal events, one per URL, two rows, and `done + failed = 2`. -/
theorem C2_one_terminal_per_url_witness :
    (terminalEvents (eventsOf (runOutOf twoUrlCfg twoUrlEnvOf).trace)).length
        = (cleanUrls twoUrlCfg.urlLines).length
    ∧ ((terminalEvents (eventsOf (runOutOf twoUrlCfg twoUrlEnvOf).trace)).filter
          (fun ev => eventKey ev == "https://example/videoA")).length
        = ((cleanUrls twoUrlCfg.urlLines).filter
            (fun x => x == "https://example/videoA")).length
    ∧ ((eventsOf (runOutOf twoUrlCfg twoUrlEnvOf).trace).filter isDone).length
        + ((eventsOf (runOutOf twoUrlCfg twoUrlEnvOf).trace).filter isFailed).length
        = (cleanUrls twoUrlCfg.urlLines).length :=
  have h := C2_one_terminal_per_url twoUrlCfg twoUrlEnvOf (by decide)
    (fun u => by unfold twoUrlEnvOf okEnv fetchFailEnv; split <;> rfl)
  ⟨h.2.1, h.2.2.1 "https://example/videoA", h.2.2.2.2.2⟩

end TubeHoarder
